import Mathlib

/-!
# Verification of the nImage header codec (`nimage-rs`)

Shallow embedding of the nImage binary-format codec: the image-header and
part-header parsers/serializers from `src/format.rs`, the cursor-based
primitive reader from `src/util.rs`, and the xxHash32 checksum from
`src/xxhio.rs` (the algorithm of the `twox_hash` crate, seed 0).

Bytes are modelled as `Nat` values (a well-formed buffer has every entry
`< 256`); machine integers are `Nat` with explicit `% 2^32` / `% 2^64`
where wrapping matters.  Code paths that can panic in Rust (`.unwrap()`
on cursor reads and seeks) are modelled with `Option`: `none` is a panic,
`some` the normal result.
-/

namespace Nimage

-- Decidable equality for `Except`, needed to evaluate parse results.
deriving instance DecidableEq for Except

/-! ## Constants (`src/format.rs`) -/

/-- 8-byte magic for the nImage header, "NEWBSIMG" as a little-endian u64. -/
def NIMG_HDR_MAGIC : Nat := 0x474D49534257454E

/-- 8-byte magic for each nImage part, "NIMGPART" as a little-endian u64. -/
def NIMG_PHDR_MAGIC : Nat := 0x54524150474D494E

/-- Current version of the nImage format. -/
def NIMG_CURRENT_VERSION : Nat := 3

/-- Size of the nImage header. -/
def NIMG_HDR_SIZE : Nat := 1024

/-- Size of each nImage part header. -/
def NIMG_PHDR_SIZE : Nat := 32

/-- Max length in bytes of the nImage name field. -/
def NIMG_NAME_LEN : Nat := 128

/-- Max number of parts in an image. -/
def NIMG_MAX_PARTS : Nat := 27

/-! ## Enums (`src/format.rs`) -/

/-- `PartType`, `repr(u8)` with `Invalid = 0` and `PART_TYPE_LAST = RootfsRw`. -/
inductive PartType where
  | Invalid
  | BootImg
  | BootTar
  | Rootfs
  | RootfsRw
deriving DecidableEq, Repr

/-- `CompMode`, `repr(u8)` with `None = 0` and `COMP_MODE_LAST = LibArchive`. -/
inductive CompMode where
  | None
  | Zstd
  | LibArchive
deriving DecidableEq, Repr

/-- The `u8` discriminant of a `PartType` (`self.ptype as u8`). -/
def PartType.toU8 : PartType → Nat
  | .Invalid => 0
  | .BootImg => 1
  | .BootTar => 2
  | .Rootfs => 3
  | .RootfsRw => 4

/-- Inverse of the `repr(u8)` layout, used to model the bounds-checked
`transmute` in `TryFrom<u8> for PartType` (only applied to values `≤ 4`). -/
def PartType.fromU8 : Nat → PartType
  | 0 => .Invalid
  | 1 => .BootImg
  | 2 => .BootTar
  | 3 => .Rootfs
  | _ => .RootfsRw

/-- The `u8` discriminant of a `CompMode` (`self.comp as u8`). -/
def CompMode.toU8 : CompMode → Nat
  | .None => 0
  | .Zstd => 1
  | .LibArchive => 2

/-- Inverse of the `repr(u8)` layout for `CompMode` (only applied to `≤ 2`). -/
def CompMode.fromU8 : Nat → CompMode
  | 0 => .None
  | 1 => .Zstd
  | _ => .LibArchive

/-! ## Error taxonomy (`src/errors.rs`)

`format.rs` constructs `PartValidError::BadComp` and `ImageValidError::BadHash`;
the enum declarations in `errors.rs` spell the checksum variant `BadCrc`.  The
model uses the constructor names from the construction sites in `format.rs`,
keeping `BadCrc` as the (part-payload) checksum-mismatch variant name at the
part level alongside `BadComp`. -/

/-- Errors seen when parsing/validating an nImage part header. -/
inductive PartValidError where
  | BadSize (size : Nat)
  | BadMagic (magic : Nat)
  | BadType (t : Nat)
  | BadComp (c : Nat)
  | BadCrc (expected : Nat) (actual : Nat)
deriving DecidableEq, Repr

/-- Errors seen when parsing/validating an nImage header. -/
inductive ImageValidError where
  | BadSize (size : Nat)
  | BadMagic (magic : Nat)
  | UnsupportedVersion (v : Nat)
  | NameTooLong (n : Nat)
  | TooManyParts (n : Nat)
  | InvalidPart (index : Nat) (err : PartValidError)
  | BadHash (expected : Nat) (actual : Nat)
deriving DecidableEq, Repr

/-- `Error::source` for `ImageValidError` (`src/errors.rs`): only
`InvalidPart` carries a nested cause. -/
def ImageValidError.source : ImageValidError → Option PartValidError
  | .InvalidPart _ err => some err
  | _ => none

/-! ## Header structures (`src/format.rs`) -/

/-- Parsed nImage part header.  `size`/`offset` are u64 and `xxh` u32 in Rust;
well-formedness (`PartHeader.WF`) records those range invariants. -/
structure PartHeader where
  size : Nat
  offset : Nat
  ptype : PartType
  comp : CompMode
  xxh : Nat
deriving DecidableEq, Repr

/-- `PartHeader::default()`. -/
def PartHeader.default : PartHeader :=
  { size := 0, offset := 0, ptype := .Invalid, comp := .None, xxh := 0 }

/-- Field ranges guaranteed by the Rust types (`u64`, `u64`, `u32`). -/
def PartHeader.WF (p : PartHeader) : Prop :=
  p.size < 2 ^ 64 ∧ p.offset < 2 ^ 64 ∧ p.xxh < 2 ^ 32

instance (p : PartHeader) : Decidable p.WF := by
  unfold PartHeader.WF; infer_instance

/-- Parsed nImage header.  `name` is the UTF-8 byte content of the Rust
`String` (`name.as_bytes()` is what serialization writes and `name.len()`
the byte length that `validate` bounds). -/
structure ImageHeader where
  version : Nat
  name : List Nat
  parts : List PartHeader
deriving DecidableEq, Repr

/-- `ImageHeader::new(name)` (and `default` via `new("")`). -/
def ImageHeader.new (name : List Nat) : ImageHeader :=
  { version := NIMG_CURRENT_VERSION, name := name, parts := [] }

/-! ## Little-endian encoding helpers -/

/-- Interpret a byte list as a little-endian unsigned integer
(`u32::from_le_bytes` / `u64::from_le_bytes` on 4/8 bytes). -/
def leDecode : List Nat → Nat
  | [] => 0
  | b :: bs => b + 256 * leDecode bs

/-- `w`-byte little-endian encoding of `v` (`to_le_bytes`, truncating to `w`
bytes). -/
def leBytes : Nat → Nat → List Nat
  | 0, _ => []
  | w + 1, v => v % 256 :: leBytes w (v / 256)

/-- `u32::to_le_bytes`. -/
def le32 (v : Nat) : List Nat := leBytes 4 v

/-- `u64::to_le_bytes`. -/
def le64 (v : Nat) : List Nat := leBytes 8 v

/-! ## Cursor reader (`src/util.rs`, `ReadHelper for Cursor<T>`)

`std::io::Cursor` holds the buffer and a `u64` position.  Positions stay far
below `2^64` in all code paths modelled here, so `pos` is a plain `Nat`; the
`u64`/`i64` overflow guards of `seek` are kept explicitly in `skip` and
`seekFromEnd`, whose `.unwrap()` panics are modelled as `none`. -/

structure Cursor where
  buf : List Nat
  pos : Nat
deriving DecidableEq, Repr

namespace Cursor

/-- Bytes remaining after the current position (`Cursor::remaining_slice`). -/
def remaining (c : Cursor) : Nat := c.buf.length - min c.pos c.buf.length

/-- `Read::read_exact` specialization for `Cursor`: succeeds without moving
on `n = 0`, fails without moving when fewer than `n` bytes remain. -/
def readExact (c : Cursor) (n : Nat) : Option (List Nat × Cursor) :=
  if n ≤ c.remaining then
    some ((c.buf.drop c.pos).take n, { c with pos := c.pos + n })
  else
    none

/-- `read_byte`: one byte via `read_exact`, `None` at the end. -/
def readByte (c : Cursor) : Option (Nat × Cursor) :=
  (c.readExact 1).map fun (bs, c') => (leDecode bs, c')

/-- `read_u32_le`: 4 bytes via `read_exact`, as a little-endian u32. -/
def readU32le (c : Cursor) : Option (Nat × Cursor) :=
  (c.readExact 4).map fun (bs, c') => (leDecode bs, c')

/-- `read_u64_le`: 8 bytes via `read_exact`, as a little-endian u64. -/
def readU64le (c : Cursor) : Option (Nat × Cursor) :=
  (c.readExact 8).map fun (bs, c') => (leDecode bs, c')

/-- `read_borrow(count)`: unconditionally advances the position by `count`,
returns `buf[pos..pos+count]` when fully in bounds and `&[]` otherwise
(`slice::get` on the range). -/
def readBorrow (c : Cursor) (count : Nat) : List Nat × Cursor :=
  if c.pos + count ≤ c.buf.length then
    ((c.buf.drop c.pos).take count, { c with pos := c.pos + count })
  else
    ([], { c with pos := c.pos + count })

/-- `skip(count)`: `count` is converted to `i64` (`try_into().unwrap()`,
panic for `count ≥ 2^63`) and passed to `seek(SeekFrom::Current)`, which for
a `Cursor` never clamps — it errors (here: panics via `.unwrap()`) only if
the new position overflows `u64`.  Returns `position() - oldpos = count`. -/
def skip (c : Cursor) (count : Nat) : Option (Nat × Cursor) :=
  if count < 2 ^ 63 ∧ c.pos + count < 2 ^ 64 then
    some (count, { c with pos := c.pos + count })
  else
    none

/-- `seek(SeekFrom::Start(n))`: sets the position, never fails. -/
def seekFromStart (c : Cursor) (n : Nat) : Cursor := { c with pos := n }

/-- `seek(SeekFrom::End(off))`: position `len + off`, error (modelled as
`none`, a panic through `.unwrap()`) on a negative or `u64`-overflowing
result. -/
def seekFromEnd (c : Cursor) (off : Int) : Option Cursor :=
  let n : Int := (c.buf.length : Int) + off
  if 0 ≤ n ∧ n < 2 ^ 64 then some { c with pos := n.toNat } else none

end Cursor

/-! ## xxHash32 (`src/xxhio.rs` / `twox_hash::XxHash32` with seed 0) -/

def XXH_PRIME1 : Nat := 2654435761
def XXH_PRIME2 : Nat := 2246822519
def XXH_PRIME3 : Nat := 3266489917
def XXH_PRIME4 : Nat := 668265263
def XXH_PRIME5 : Nat := 374761393

/-- Truncation to u32. -/
def m32 (x : Nat) : Nat := x % 2 ^ 32

/-- 32-bit left rotation (for `x < 2^32`, `0 < r < 32`). -/
def rotl32 (x r : Nat) : Nat := m32 (x <<< r) + x >>> (32 - r)

/-- One accumulator round on a 4-byte lane. -/
def xxhRound (acc lane : Nat) : Nat :=
  m32 (rotl32 (m32 (acc + lane * XXH_PRIME2)) 13 * XXH_PRIME1)

/-- Consume 16-byte stripes, updating the four accumulators; returns the
accumulators and the remaining (< 16 byte) tail. -/
def xxhStripes : Nat → Nat → Nat → Nat → List Nat →
    Nat × Nat × Nat × Nat × List Nat
  | v1, v2, v3, v4, b0 :: b1 :: b2 :: b3 :: b4 :: b5 :: b6 :: b7 ::
      b8 :: b9 :: b10 :: b11 :: b12 :: b13 :: b14 :: b15 :: rest =>
    xxhStripes (xxhRound v1 (leDecode [b0, b1, b2, b3]))
      (xxhRound v2 (leDecode [b4, b5, b6, b7]))
      (xxhRound v3 (leDecode [b8, b9, b10, b11]))
      (xxhRound v4 (leDecode [b12, b13, b14, b15])) rest
  | v1, v2, v3, v4, l => (v1, v2, v3, v4, l)

/-- Consume remaining 4-byte lanes. -/
def xxhTail4 : Nat → List Nat → Nat × List Nat
  | h, b0 :: b1 :: b2 :: b3 :: rest =>
    xxhTail4 (m32 (rotl32 (m32 (h + leDecode [b0, b1, b2, b3] * XXH_PRIME3)) 17
      * XXH_PRIME4)) rest
  | h, l => (h, l)

/-- Consume remaining single bytes. -/
def xxhTail1 : Nat → List Nat → Nat
  | h, b :: rest =>
    xxhTail1 (m32 (rotl32 (m32 (h + b * XXH_PRIME5)) 11 * XXH_PRIME1)) rest
  | h, [] => h

/-- Final avalanche mix. -/
def xxhAvalanche (h0 : Nat) : Nat :=
  let h1 := h0 ^^^ h0 >>> 15
  let h2 := m32 (h1 * XXH_PRIME2)
  let h3 := h2 ^^^ h2 >>> 13
  let h4 := m32 (h3 * XXH_PRIME3)
  h4 ^^^ h4 >>> 16

/-- `xxhio::xxhash32`: one-off xxHash32 of a byte slice, seed 0
(`XxHash32::with_seed(0)`; the seed-0 accumulator seeds are
`P1+P2`, `P2`, `0`, and `0 - P1` wrapped to u32). -/
def xxhash32 (buf : List Nat) : Nat :=
  let len := buf.length
  let hrest :=
    if 16 ≤ len then
      match xxhStripes (m32 (XXH_PRIME1 + XXH_PRIME2)) XXH_PRIME2 0
          (2 ^ 32 - XXH_PRIME1) buf with
      | (v1, v2, v3, v4, rest) =>
        (m32 (rotl32 v1 1 + rotl32 v2 7 + rotl32 v3 12 + rotl32 v4 18), rest)
    else
      (XXH_PRIME5, buf)
  let h1 := m32 (hrest.1 + len)
  let h2rest := xxhTail4 h1 hrest.2
  xxhAvalanche (xxhTail1 h2rest.1 h2rest.2)


/-! ## Lossy UTF-8 decoding (`String::from_utf8_lossy`)

Model of the Rust standard library's lossy UTF-8 decoding, returning the
UTF-8 bytes of the decoded string: valid sequences are kept verbatim, each
maximal invalid subpart (1–3 bytes, per `Utf8Error::error_len`) is replaced
by the replacement character U+FFFD (bytes `EF BF BD`). -/

/-- UTF-8 continuation byte (`0x80..=0xBF`). -/
def isCont (b : Nat) : Bool := decide (0x80 ≤ b ∧ b ≤ 0xBF)

/-- UTF-8 encoding of U+FFFD. -/
def REPLACEMENT : List Nat := [0xEF, 0xBF, 0xBD]

/-- Admissible second byte of a 3-byte sequence led by `b`. -/
def utf8Second3 (b c1 : Nat) : Bool :=
  if b = 0xE0 then decide (0xA0 ≤ c1 ∧ c1 ≤ 0xBF)
  else if b = 0xED then decide (0x80 ≤ c1 ∧ c1 ≤ 0x9F)
  else isCont c1

/-- Admissible second byte of a 4-byte sequence led by `b`. -/
def utf8Second4 (b c1 : Nat) : Bool :=
  if b = 0xF0 then decide (0x90 ≤ c1 ∧ c1 ≤ 0xBF)
  else if b = 0xF4 then decide (0x80 ≤ c1 ∧ c1 ≤ 0x8F)
  else isCont c1

/-- `String::from_utf8_lossy`, as a byte-level transformation, written
with a fuel parameter (structural recursion, so that the kernel can
evaluate it) — one unit of fuel per decoded sequence, so `l.length` fuel
is always enough.  Each step keeps a valid sequence verbatim or replaces
a maximal invalid subpart (1–3 bytes) with U+FFFD. -/
def utf8LossyFuel : Nat → List Nat → List Nat
  | 0, _ => []
  | _ + 1, [] => []
  | fuel + 1, b :: rest =>
    if b < 0x80 then b :: utf8LossyFuel fuel rest
    else if 0xC2 ≤ b ∧ b ≤ 0xDF then
      match rest with
      | c1 :: rest1 =>
        if isCont c1 then b :: c1 :: utf8LossyFuel fuel rest1
        else REPLACEMENT ++ utf8LossyFuel fuel (c1 :: rest1)
      | [] => REPLACEMENT
    else if 0xE0 ≤ b ∧ b ≤ 0xEF then
      match rest with
      | c1 :: rest1 =>
        if utf8Second3 b c1 then
          match rest1 with
          | c2 :: rest2 =>
            if isCont c2 then b :: c1 :: c2 :: utf8LossyFuel fuel rest2
            else REPLACEMENT ++ utf8LossyFuel fuel (c2 :: rest2)
          | [] => REPLACEMENT
        else REPLACEMENT ++ utf8LossyFuel fuel (c1 :: rest1)
      | [] => REPLACEMENT
    else if 0xF0 ≤ b ∧ b ≤ 0xF4 then
      match rest with
      | c1 :: rest1 =>
        if utf8Second4 b c1 then
          match rest1 with
          | c2 :: rest2 =>
            if isCont c2 then
              match rest2 with
              | c3 :: rest3 =>
                if isCont c3 then b :: c1 :: c2 :: c3 :: utf8LossyFuel fuel rest3
                else REPLACEMENT ++ utf8LossyFuel fuel (c3 :: rest3)
              | [] => REPLACEMENT
            else REPLACEMENT ++ utf8LossyFuel fuel (c2 :: rest2)
          | [] => REPLACEMENT
        else REPLACEMENT ++ utf8LossyFuel fuel (c1 :: rest1)
      | [] => REPLACEMENT
    else REPLACEMENT ++ utf8LossyFuel fuel rest

/-- `String::from_utf8_lossy` on a byte list. -/
def fromUtf8Lossy (l : List Nat) : List Nat := utf8LossyFuel l.length l

/-! ## Part-header codec (`src/format.rs`, `impl PartHeader`) -/

/-- `TryFrom<u8> for PartType`: bounds-checked `transmute`
(`val <= PART_TYPE_LAST as u8`, i.e. `val ≤ 4`). -/
def PartType.tryFrom (val : Nat) : Except PartValidError PartType :=
  if val ≤ 4 then .ok (PartType.fromU8 val) else .error (.BadType val)

/-- `PartType::from_u8_valid`: like `try_from` but also maps the explicit
`Invalid` variant to `Err(BadType(Invalid as u8))`. -/
def PartType.fromU8Valid (val : Nat) : Except PartValidError PartType :=
  match PartType.tryFrom val with
  | .error e => .error e
  | .ok t =>
    match t with
    | .Invalid => .error (.BadType PartType.Invalid.toU8)
    | x => .ok x

/-- `TryFrom<u8> for CompMode`: bounds-checked `transmute`
(`val <= COMP_MODE_LAST as u8`, i.e. `val ≤ 2`). -/
def CompMode.tryFrom (val : Nat) : Except PartValidError CompMode :=
  if val ≤ 2 then .ok (CompMode.fromU8 val) else .error (.BadComp val)

/-- `PartHeader::from_bytes`.  `none` models a panic of one of the
`.unwrap()` calls; `some` carries the Rust `PartValidResult`. -/
def PartHeader.fromBytes (buf : List Nat) : Option (Except PartValidError PartHeader) :=
  if buf.length ≠ NIMG_PHDR_SIZE then some (.error (.BadSize buf.length)) else
  let reader : Cursor := ⟨buf, 0⟩
  match reader.readU64le with
  | none => none
  | some (magic, reader) =>
  if magic ≠ NIMG_PHDR_MAGIC then some (.error (.BadMagic magic)) else
  match reader.readU64le with
  | none => none
  | some (size, reader) =>
  match reader.readU64le with
  | none => none
  | some (offset, reader) =>
  match reader.readByte with
  | none => none
  | some (tb, reader) =>
  match PartType.fromU8Valid tb with
  | .error e => some (.error e)
  | .ok ptype =>
  match reader.readByte with
  | none => none
  | some (cb, reader) =>
  match CompMode.tryFrom cb with
  | .error e => some (.error e)
  | .ok comp =>
  match reader.skip 2 with
  | none => none
  | some (_, reader) =>
  match reader.readU32le with
  | none => none
  | some (xxh, _) =>
  some (.ok { size := size, offset := offset, ptype := ptype, comp := comp, xxh := xxh })

/-- `PartHeader::write_to`: magic, size, offset, type byte, compression
byte, 2 zero padding bytes, checksum — exactly 32 bytes. -/
def PartHeader.writeTo (p : PartHeader) : List Nat :=
  le64 NIMG_PHDR_MAGIC ++ le64 p.size ++ le64 p.offset ++
    [p.ptype.toU8] ++ [p.comp.toU8] ++ List.replicate 2 0 ++ le32 p.xxh

/-! ## Image-header codec (`src/format.rs`, `impl ImageHeader`) -/

/-- The part loop of `ImageHeader::validate`: first part with the `Invalid`
sentinel type (index order) yields `InvalidPart`. -/
def ImageHeader.checkParts : Nat → List PartHeader → Except ImageValidError Unit
  | _, [] => .ok ()
  | i, p :: ps =>
    if p.ptype = PartType.Invalid then
      .error (.InvalidPart i (.BadType PartType.Invalid.toU8))
    else
      ImageHeader.checkParts (i + 1) ps

/-- `ImageHeader::validate`: version, then name length, then part count,
then the per-part `Invalid`-type scan. -/
def ImageHeader.validate (h : ImageHeader) : Except ImageValidError Unit :=
  if h.version ≠ NIMG_CURRENT_VERSION then .error (.UnsupportedVersion h.version)
  else if h.name.length > NIMG_NAME_LEN then .error (.NameTooLong h.name.length)
  else if h.parts.length > NIMG_MAX_PARTS then .error (.TooManyParts h.parts.length)
  else ImageHeader.checkParts 0 h.parts

/-- The 1020 bytes `ImageHeader::write_to` pushes through the xxHash32
writer wrapper: magic, version, part count, 6 zeros, name zero-padded to
128 bytes, the parts' records, zero padding for unused part slots, 12
reserved zeros. -/
def ImageHeader.bodyBytes (h : ImageHeader) : List Nat :=
  le64 NIMG_HDR_MAGIC ++ [h.version] ++ [h.parts.length] ++ List.replicate 6 0 ++
    h.name ++ List.replicate (NIMG_NAME_LEN - h.name.length) 0 ++
    (h.parts.map PartHeader.writeTo).flatten ++
    List.replicate (NIMG_PHDR_SIZE * (NIMG_MAX_PARTS - h.parts.length)) 0 ++
    List.replicate 12 0

/-- `ImageHeader::write_to`: validate, emit the body through the hashing
writer, then append the accumulated xxHash32 (little-endian).  The Rust
code wraps the validation error into an `io::Error`; the model keeps the
structured value. -/
def ImageHeader.writeTo (h : ImageHeader) : Except ImageValidError (List Nat) :=
  match h.validate with
  | .error e => .error e
  | .ok _ => .ok (h.bodyBytes ++ le32 (xxhash32 h.bodyBytes))

/-- The part-reading loop of `ImageHeader::from_bytes`: `read_borrow(32)`
per declared part, `PartHeader::from_bytes`, errors wrapped as
`InvalidPart` with the loop index. -/
def ImageHeader.readParts : Cursor → Nat → Nat →
    Option (Except ImageValidError (List PartHeader × Cursor))
  | reader, 0, _ => some (.ok ([], reader))
  | reader, n + 1, idx =>
    match reader.readBorrow NIMG_PHDR_SIZE with
    | (phdrBytes, reader') =>
      match PartHeader.fromBytes phdrBytes with
      | none => none
      | some (.error e) => some (.error (.InvalidPart idx e))
      | some (.ok phdr) =>
        match ImageHeader.readParts reader' n (idx + 1) with
        | none => none
        | some (.error e) => some (.error e)
        | some (.ok (parts, readerEnd)) => some (.ok (phdr :: parts, readerEnd))

/-- `ImageHeader::from_bytes`.  `none` models a panic of one of the
`.unwrap()` calls; `some` carries the Rust `ImageValidResult`. -/
def ImageHeader.fromBytes (buf : List Nat) : Option (Except ImageValidError ImageHeader) :=
  if buf.length ≠ NIMG_HDR_SIZE then some (.error (.BadSize buf.length)) else
  let reader : Cursor := ⟨buf, 0⟩
  match reader.readU64le with
  | none => none
  | some (magic, reader) =>
  if magic ≠ NIMG_HDR_MAGIC then some (.error (.BadMagic magic)) else
  match reader.seekFromEnd (-4) with
  | none => none
  | some reader =>
  match reader.readU32le with
  | none => none
  | some (expectedXxh, reader) =>
  let actualXxh := xxhash32 (buf.take (NIMG_HDR_SIZE - 4))
  if expectedXxh ≠ actualXxh then some (.error (.BadHash expectedXxh actualXxh)) else
  let reader := reader.seekFromStart 8
  match reader.readByte with
  | none => none
  | some (version, reader) =>
  if version ≠ NIMG_CURRENT_VERSION then some (.error (.UnsupportedVersion version)) else
  match reader.readByte with
  | none => none
  | some (numParts, reader) =>
  if numParts > NIMG_MAX_PARTS then some (.error (.TooManyParts numParts)) else
  match reader.skip 6 with
  | none => none
  | some (_, reader) =>
  match reader.readBorrow NIMG_NAME_LEN with
  | (nameBytes, reader) =>
  let nullpos :=
    match nameBytes.findIdx? (fun c => c == 0) with
    | some x => x
    | none => nameBytes.length
  let name := fromUtf8Lossy (nameBytes.take nullpos)
  match ImageHeader.readParts reader numParts 0 with
  | none => none
  | some (.error e) => some (.error e)
  | some (.ok (parts, _)) =>
    some (.ok { version := version, name := name, parts := parts })

/-! ## Concrete test fixture (`src/format.rs` test module)

`GOOD_HEADER_START` from the `format.rs` tests: a valid header with two
parts, used as concrete input for witnesses and counterexamples. -/

/-- First 208 bytes of the known-good test header. -/
def goodHeaderStart : List Nat := [
  78, 69, 87, 66, 83, 73, 77, 71, 3, 2, 0, 0, 0, 0, 0, 0,
  50, 48, 50, 48, 45, 48, 53, 45, 50, 55, 45, 114, 97, 115, 112, 105,
  111, 115, 45, 98, 117, 115, 116, 101, 114, 45, 108, 105, 116, 101, 45, 97,
  114, 109, 104, 102, 0, 0, 0, 0, 0, 0, 0, 0, 0, 0, 0, 0,
  0, 0, 0, 0, 0, 0, 0, 0, 0, 0, 0, 0, 0, 0, 0, 0,
  0, 0, 0, 0, 0, 0, 0, 0, 0, 0, 0, 0, 0, 0, 0, 0,
  0, 0, 0, 0, 0, 0, 0, 0, 0, 0, 0, 0, 0, 0, 0, 0,
  0, 0, 0, 0, 0, 0, 0, 0, 0, 0, 0, 0, 0, 0, 0, 0,
  0, 0, 0, 0, 0, 0, 0, 0, 0, 0, 0, 0, 0, 0, 0, 0,
  78, 73, 77, 71, 80, 65, 82, 84, 56, 232, 219, 1, 0, 0, 0, 0,
  0, 0, 0, 0, 0, 0, 0, 0, 1, 1, 0, 0, 112, 134, 75, 231,
  78, 73, 77, 71, 80, 65, 82, 84, 0, 80, 35, 20, 0, 0, 0, 0,
  64, 232, 219, 1, 0, 0, 0, 0, 3, 0, 0, 0, 65, 104, 132, 182]

/-- The full 1024-byte known-good header: prefix, zero fill, stored
xxHash32 `0xc252f66c` (little-endian `6c f6 52 c2`). -/
def goodHeaderBytes : List Nat :=
  goodHeaderStart ++ List.replicate 812 0 ++ [0x6C, 0xF6, 0x52, 0xC2]

/-- The parsed form of `goodHeaderBytes` (the tests' `good_header_obj`). -/
def goodHeaderObj : ImageHeader :=
  { version := 3
  , name := [50, 48, 50, 48, 45, 48, 53, 45, 50, 55, 45, 114, 97, 115, 112,
      105, 111, 115, 45, 98, 117, 115, 116, 101, 114, 45, 108, 105, 116,
      101, 45, 97, 114, 109, 104, 102]
  , parts :=
    [ { size := 0x1DBE838, offset := 0, ptype := .BootImg, comp := .Zstd,
        xxh := 0xE74B8670 }
    , { size := 0x14235000, offset := 0x1DBE840, ptype := .Rootfs,
        comp := .None, xxh := 0xB6846841 } ] }

/-- `goodHeaderBytes` with the magic of the second part-header slot
corrupted (byte `0xB0` zeroed) and the stored image hash fixed up to
`0x03031f18`, as in the `parse_image_header` test. -/
def corruptPart1Bytes : List Nat :=
  goodHeaderStart.set 0xB0 0 ++ List.replicate 812 0 ++ [0x18, 0x1F, 0x03, 0x03]

/-! ## Encoding lemmas -/

theorem leBytes_length (w v : Nat) : (leBytes w v).length = w := by
  induction w generalizing v with
  | zero => simp [leBytes]
  | succ w ih => simp [leBytes, ih]

theorem leDecode_leBytes (w v : Nat) : leDecode (leBytes w v) = v % 256 ^ w := by
  induction w generalizing v with
  | zero => simp [leBytes, leDecode, Nat.mod_one]
  | succ w ih =>
    simp only [leBytes, leDecode, ih]
    rw [pow_succ, mul_comm (256 ^ w) 256, Nat.mod_mul]

theorem leDecode_le64 (v : Nat) (h : v < 2 ^ 64) : leDecode (le64 v) = v := by
  have : (256 : Nat) ^ 8 = 2 ^ 64 := by norm_num
  rw [le64, leDecode_leBytes, this, Nat.mod_eq_of_lt h]

theorem leDecode_le32 (v : Nat) (h : v < 2 ^ 32) : leDecode (le32 v) = v := by
  have : (256 : Nat) ^ 4 = 2 ^ 32 := by norm_num
  rw [le32, leDecode_leBytes, this, Nat.mod_eq_of_lt h]

theorem le64_length (v : Nat) : (le64 v).length = 8 := leBytes_length 8 v

theorem le32_length (v : Nat) : (le32 v).length = 4 := leBytes_length 4 v

theorem xxhAvalanche_lt (x : Nat) : xxhAvalanche x < 2 ^ 32 := by
  unfold xxhAvalanche
  refine Nat.xor_lt_two_pow ?_ ?_
  · exact Nat.mod_lt _ (by norm_num)
  · calc m32 (_ * XXH_PRIME3) >>> 16 ≤ m32 (_ * XXH_PRIME3) := by
          rw [Nat.shiftRight_eq_div_pow]; exact Nat.div_le_self _ _
      _ < 2 ^ 32 := Nat.mod_lt _ (by norm_num)

theorem xxhash32_lt (buf : List Nat) : xxhash32 buf < 2 ^ 32 := by
  unfold xxhash32
  exact xxhAvalanche_lt _

/-! ## Cursor stepping lemmas

Each lemma evaluates one reader operation on a cursor positioned exactly at
the boundary between a prefix `pre` and the field being read. -/

theorem Cursor.readExact_pre (pre mid rest : List Nat) (n : Nat)
    (hmid : mid.length = n) :
    Cursor.readExact ⟨pre ++ (mid ++ rest), pre.length⟩ n =
      some (mid, ⟨pre ++ (mid ++ rest), pre.length + n⟩) := by
  have hdrop : (pre ++ (mid ++ rest)).drop pre.length = mid ++ rest :=
    List.drop_left pre (mid ++ rest)
  have hlen : (pre ++ (mid ++ rest)).length = pre.length + (mid.length + rest.length) := by
    simp
  rw [Cursor.readExact]
  rw [if_pos (by simp [Cursor.remaining, hlen]; omega)]
  rw [hdrop, ← hmid, List.take_left]

theorem Cursor.readU64le_pre (pre rest : List Nat) (v : Nat) (hv : v < 2 ^ 64) :
    Cursor.readU64le ⟨pre ++ (le64 v ++ rest), pre.length⟩ =
      some (v, ⟨pre ++ (le64 v ++ rest), pre.length + 8⟩) := by
  rw [Cursor.readU64le, Cursor.readExact_pre pre (le64 v) rest 8 (le64_length v)]
  simp [leDecode_le64 v hv]

theorem Cursor.readU32le_pre (pre rest : List Nat) (v : Nat) (hv : v < 2 ^ 32) :
    Cursor.readU32le ⟨pre ++ (le32 v ++ rest), pre.length⟩ =
      some (v, ⟨pre ++ (le32 v ++ rest), pre.length + 4⟩) := by
  rw [Cursor.readU32le, Cursor.readExact_pre pre (le32 v) rest 4 (le32_length v)]
  simp [leDecode_le32 v hv]

theorem Cursor.readByte_pre (pre rest : List Nat) (b : Nat) :
    Cursor.readByte ⟨pre ++ ([b] ++ rest), pre.length⟩ =
      some (b, ⟨pre ++ ([b] ++ rest), pre.length + 1⟩) := by
  rw [Cursor.readByte, Cursor.readExact_pre pre [b] rest 1 rfl]
  simp [leDecode]

theorem Cursor.readBorrow_pre (pre mid rest : List Nat) :
    Cursor.readBorrow ⟨pre ++ (mid ++ rest), pre.length⟩ mid.length =
      (mid, ⟨pre ++ (mid ++ rest), pre.length + mid.length⟩) := by
  rw [Cursor.readBorrow, if_pos (by simp)]
  rw [List.drop_left pre (mid ++ rest), List.take_left]

theorem Cursor.skip_small (c : Cursor) (count : Nat)
    (h1 : count < 2 ^ 63) (h2 : c.pos + count < 2 ^ 64) :
    Cursor.skip c count = some (count, { c with pos := c.pos + count }) := by
  rw [Cursor.skip, if_pos ⟨h1, h2⟩]

/-! ## Field views of a 1024-byte image buffer

Spec-side expressions for what `ImageHeader::from_bytes` reads at each fixed
offset; `fromBytes_shape` proves the parser equal to a straight-line
decision over these views. -/

/-- The 8-byte magic field, as read by `read_u64_le` at offset 0. -/
def imageMagic (buf : List Nat) : Nat := leDecode (buf.take 8)

/-- The stored trailing checksum, as read by `read_u32_le` at offset 1020. -/
def storedHash (buf : List Nat) : Nat := leDecode ((buf.drop 1020).take 4)

/-- The byte at offset `i`, as read by `read_byte`. -/
def byteAt (buf : List Nat) (i : Nat) : Nat := leDecode ((buf.drop i).take 1)

/-- Truncation of the name field at the first NUL byte (whole field when no
NUL is present), exactly the `nullpos` computation of `from_bytes`. -/
def nulTruncate (l : List Nat) : List Nat :=
  l.take (match l.findIdx? (fun c => c == 0) with
    | some x => x
    | none => l.length)

/-- The decoded image name: the 128-byte field at offset 16, truncated at
the first NUL and decoded with lossy UTF-8. -/
def imageName (buf : List Nat) : List Nat :=
  fromUtf8Lossy (nulTruncate ((buf.drop 16).take 128))

theorem ImageHeader.fromBytes_shape (buf : List Nat) (hlen : buf.length = 1024) :
    ImageHeader.fromBytes buf =
      if imageMagic buf ≠ NIMG_HDR_MAGIC then
        some (.error (.BadMagic (imageMagic buf)))
      else if storedHash buf ≠ xxhash32 (buf.take 1020) then
        some (.error (.BadHash (storedHash buf) (xxhash32 (buf.take 1020))))
      else if byteAt buf 8 ≠ NIMG_CURRENT_VERSION then
        some (.error (.UnsupportedVersion (byteAt buf 8)))
      else if byteAt buf 9 > NIMG_MAX_PARTS then
        some (.error (.TooManyParts (byteAt buf 9)))
      else
        match ImageHeader.readParts ⟨buf, 144⟩ (byteAt buf 9) 0 with
        | none => none
        | some (.error e) => some (.error e)
        | some (.ok (parts, _)) =>
          some (.ok { version := byteAt buf 8, name := imageName buf, parts := parts }) := by
  have h1 : Cursor.readU64le ⟨buf, 0⟩ = some (imageMagic buf, ⟨buf, 8⟩) := by
    rw [Cursor.readU64le, Cursor.readExact, if_pos (by simp [Cursor.remaining, hlen])]
    simp [imageMagic]
  have h2 : Cursor.seekFromEnd ⟨buf, 8⟩ (-4) = some ⟨buf, 1020⟩ := by
    rw [Cursor.seekFromEnd]
    rw [if_pos (by constructor <;> simp [hlen])]
    simp [hlen]
  have h3 : Cursor.readU32le ⟨buf, 1020⟩ = some (storedHash buf, ⟨buf, 1024⟩) := by
    rw [Cursor.readU32le, Cursor.readExact, if_pos (by simp [Cursor.remaining, hlen])]
    simp [storedHash]
  have h4 : Cursor.readByte ⟨buf, 8⟩ = some (byteAt buf 8, ⟨buf, 9⟩) := by
    rw [Cursor.readByte, Cursor.readExact, if_pos (by simp [Cursor.remaining, hlen])]
    simp [byteAt]
  have h5 : Cursor.readByte ⟨buf, 9⟩ = some (byteAt buf 9, ⟨buf, 10⟩) := by
    rw [Cursor.readByte, Cursor.readExact, if_pos (by simp [Cursor.remaining, hlen])]
    simp [byteAt]
  have h6 : Cursor.skip ⟨buf, 10⟩ 6 = some (6, ⟨buf, 16⟩) :=
    Cursor.skip_small ⟨buf, 10⟩ 6 (by norm_num) (by norm_num)
  have h7 : Cursor.readBorrow ⟨buf, 16⟩ 128 = ((buf.drop 16).take 128, ⟨buf, 144⟩) := by
    rw [Cursor.readBorrow, if_pos (by simp [hlen])]
  simp only [ImageHeader.fromBytes, NIMG_HDR_SIZE, NIMG_NAME_LEN, hlen, if_neg,
    h1, h2, h3, h4, h5, h6, h7, Cursor.seekFromStart,
    imageName, nulTruncate, Nat.reduceSub, ne_eq, not_true_eq_false, if_false]

/-! ## Part-header lemmas -/

/-- The 8-byte part magic field, as read by `read_u64_le` at offset 0. -/
def partMagic (buf : List Nat) : Nat := leDecode (buf.take 8)

theorem partFromBytes_shape (buf : List Nat) (hlen : buf.length = 32) :
    PartHeader.fromBytes buf =
      if partMagic buf ≠ NIMG_PHDR_MAGIC then
        some (.error (.BadMagic (partMagic buf)))
      else
        match PartType.fromU8Valid (byteAt buf 24) with
        | .error e => some (.error e)
        | .ok ptype =>
          match CompMode.tryFrom (byteAt buf 25) with
          | .error e => some (.error e)
          | .ok comp =>
            some (.ok { size := leDecode ((buf.drop 8).take 8)
                      , offset := leDecode ((buf.drop 16).take 8)
                      , ptype := ptype, comp := comp
                      , xxh := leDecode ((buf.drop 28).take 4) }) := by
  have h0 : Cursor.readU64le ⟨buf, 0⟩ = some (partMagic buf, ⟨buf, 8⟩) := by
    rw [Cursor.readU64le, Cursor.readExact, if_pos (by simp [Cursor.remaining, hlen])]
    simp [partMagic]
  have h8 : Cursor.readU64le ⟨buf, 8⟩ = some (leDecode ((buf.drop 8).take 8), ⟨buf, 16⟩) := by
    rw [Cursor.readU64le, Cursor.readExact, if_pos (by simp [Cursor.remaining, hlen])]
    simp
  have h16 : Cursor.readU64le ⟨buf, 16⟩ = some (leDecode ((buf.drop 16).take 8), ⟨buf, 24⟩) := by
    rw [Cursor.readU64le, Cursor.readExact, if_pos (by simp [Cursor.remaining, hlen])]
    simp
  have h24 : Cursor.readByte ⟨buf, 24⟩ = some (byteAt buf 24, ⟨buf, 25⟩) := by
    rw [Cursor.readByte, Cursor.readExact, if_pos (by simp [Cursor.remaining, hlen])]
    simp [byteAt]
  have h25 : Cursor.readByte ⟨buf, 25⟩ = some (byteAt buf 25, ⟨buf, 26⟩) := by
    rw [Cursor.readByte, Cursor.readExact, if_pos (by simp [Cursor.remaining, hlen])]
    simp [byteAt]
  have h26 : Cursor.skip ⟨buf, 26⟩ 2 = some (2, ⟨buf, 28⟩) :=
    Cursor.skip_small ⟨buf, 26⟩ 2 (by norm_num) (by norm_num)
  have h28 : Cursor.readU32le ⟨buf, 28⟩ = some (leDecode ((buf.drop 28).take 4), ⟨buf, 32⟩) := by
    rw [Cursor.readU32le, Cursor.readExact, if_pos (by simp [Cursor.remaining, hlen])]
    simp
  simp only [PartHeader.fromBytes, NIMG_PHDR_SIZE, hlen, h0, h8, h16, h24, h25, h26, h28]
  rw [if_neg (by norm_num)]

theorem partWriteTo_length (p : PartHeader) : p.writeTo.length = 32 := by
  simp [PartHeader.writeTo, le64_length, le32_length]

/-- Round-trip for a single part header: serializing a well-formed part
with a non-`Invalid` type and re-parsing yields the same part. -/
theorem part_roundtrip (p : PartHeader) (hwf : p.WF) (hty : p.ptype ≠ .Invalid) :
    PartHeader.fromBytes p.writeTo = some (.ok p) := by
  obtain ⟨hs, ho, hx⟩ := hwf
  have hW : p.writeTo = le64 NIMG_PHDR_MAGIC ++ (le64 p.size ++ (le64 p.offset ++
      (p.ptype.toU8 :: p.comp.toU8 :: 0 :: 0 :: le32 p.xxh))) := by
    simp [PartHeader.writeTo, List.replicate]
  have d8 : p.writeTo.drop 8 = le64 p.size ++ (le64 p.offset ++
      (p.ptype.toU8 :: p.comp.toU8 :: 0 :: 0 :: le32 p.xxh)) := by
    rw [hW]; exact List.drop_left' (le64_length _)
  have d16 : p.writeTo.drop 16 = le64 p.offset ++
      (p.ptype.toU8 :: p.comp.toU8 :: 0 :: 0 :: le32 p.xxh) := by
    have : (p.writeTo.drop 8).drop 8 = p.writeTo.drop 16 := by rw [List.drop_drop]
    rw [← this, d8]; exact List.drop_left' (le64_length _)
  have d24 : p.writeTo.drop 24 =
      p.ptype.toU8 :: p.comp.toU8 :: 0 :: 0 :: le32 p.xxh := by
    have : (p.writeTo.drop 16).drop 8 = p.writeTo.drop 24 := by rw [List.drop_drop]
    rw [← this, d16]; exact List.drop_left' (le64_length _)
  have d28 : p.writeTo.drop 28 = le32 p.xxh := by
    have : (p.writeTo.drop 24).drop 4 = p.writeTo.drop 28 := by rw [List.drop_drop]
    rw [← this, d24]; rfl
  have emagic : partMagic p.writeTo = NIMG_PHDR_MAGIC := by
    rw [partMagic, hW, List.take_left' (le64_length _), leDecode_le64]
    rw [NIMG_PHDR_MAGIC]; norm_num
  have esize : leDecode ((p.writeTo.drop 8).take 8) = p.size := by
    rw [d8, List.take_left' (le64_length _), leDecode_le64 _ hs]
  have eoff : leDecode ((p.writeTo.drop 16).take 8) = p.offset := by
    rw [d16, List.take_left' (le64_length _), leDecode_le64 _ ho]
  have ext : byteAt p.writeTo 24 = p.ptype.toU8 := by
    rw [byteAt, d24]; simp [leDecode]
  have exc : byteAt p.writeTo 25 = p.comp.toU8 := by
    have : (p.writeTo.drop 24).drop 1 = p.writeTo.drop 25 := by rw [List.drop_drop]
    rw [byteAt, ← this, d24]; simp [leDecode]
  have exh : leDecode ((p.writeTo.drop 28).take 4) = p.xxh := by
    rw [d28, List.take_of_length_le (le_of_eq (le32_length _)), leDecode_le32 _ hx]
  have etype : PartType.fromU8Valid p.ptype.toU8 = .ok p.ptype := by
    cases h : p.ptype <;> first
      | exact absurd h hty
      | rfl
  have ecomp : CompMode.tryFrom p.comp.toU8 = .ok p.comp := by
    cases h : p.comp <;> rfl
  rw [partFromBytes_shape _ (partWriteTo_length p)]
  rw [if_neg (by rw [emagic]; exact fun h => h rfl)]
  rw [ext, etype, exc, ecomp, esize, eoff, exh]

/-- `PartHeader::from_bytes` never panics: every buffer yields a result. -/
theorem partFromBytes_isSome (b : List Nat) : (PartHeader.fromBytes b).isSome := by
  by_cases h : b.length = 32
  · rw [partFromBytes_shape b h]
    by_cases hm : partMagic b ≠ NIMG_PHDR_MAGIC
    · rw [if_pos hm]; rfl
    · rw [if_neg hm]
      rcases ht : PartType.fromU8Valid (byteAt b 24) with e | t
      · simp
      · rcases hc : CompMode.tryFrom (byteAt b 25) with e | c <;> simp
  · rw [PartHeader.fromBytes, if_pos (by simpa [NIMG_PHDR_SIZE] using h)]
    rfl

/-! ## Part-loop lemmas -/

/-- The 32-byte slot of part `j` in a 1024-byte image buffer. -/
def partSlot (buf : List Nat) (j : Nat) : List Nat :=
  (buf.drop (144 + 32 * j)).take 32

/-- Reading `parts.length` serialized part records laid out back-to-back
after a prefix yields exactly those parts. -/
theorem readParts_blocks (parts : List PartHeader) :
    ∀ (pre rest : List Nat) (idx : Nat),
      (∀ p ∈ parts, p.WF ∧ p.ptype ≠ PartType.Invalid) →
      ImageHeader.readParts
        ⟨pre ++ ((parts.map PartHeader.writeTo).flatten ++ rest), pre.length⟩
        parts.length idx =
      some (.ok (parts,
        ⟨pre ++ ((parts.map PartHeader.writeTo).flatten ++ rest),
         pre.length + 32 * parts.length⟩)) := by
  induction parts with
  | nil => intro pre rest idx _; simp [ImageHeader.readParts]
  | cons p ps ih =>
    intro pre rest idx hwf
    have hp := hwf p (List.mem_cons_self p ps)
    have hps : ∀ q ∈ ps, q.WF ∧ q.ptype ≠ PartType.Invalid := fun q hq =>
      hwf q (List.mem_cons_of_mem p hq)
    have hbuf : pre ++ (((p :: ps).map PartHeader.writeTo).flatten ++ rest) =
        pre ++ (p.writeTo ++ ((ps.map PartHeader.writeTo).flatten ++ rest)) := by
      simp [List.append_assoc]
    have hb := Cursor.readBorrow_pre pre p.writeTo
      ((ps.map PartHeader.writeTo).flatten ++ rest)
    rw [partWriteTo_length] at hb
    have hpr := part_roundtrip p hp.1 hp.2
    have hassoc : pre ++ (p.writeTo ++ ((ps.map PartHeader.writeTo).flatten ++ rest)) =
        (pre ++ p.writeTo) ++ ((ps.map PartHeader.writeTo).flatten ++ rest) :=
      (List.append_assoc pre p.writeTo _).symm
    have hlen2 : pre.length + 32 = (pre ++ p.writeTo).length := by
      simp [partWriteTo_length]
    have hpos : (pre ++ p.writeTo).length + 32 * ps.length =
        pre.length + 32 * (ps.length + 1) := by
      simp [partWriteTo_length]; ring
    rw [hbuf]
    simp only [List.length_cons, ImageHeader.readParts, NIMG_PHDR_SIZE, hb, hpr]
    rw [hassoc, hlen2, ih (pre ++ p.writeTo) rest (idx + 1) hps, hpos]

/-- If the slots before index `i` all parse and slot `i` fails with `e`,
the part loop stops with `InvalidPart` carrying the absolute index and the
part-level cause. -/
theorem readParts_error_at (buf : List Nat) (hlen : buf.length = 1024) :
    ∀ (n : Nat), ∀ (k i : Nat) (e : PartValidError), k + n ≤ 27 → i < n →
      (∀ j, j < i → ∃ ph, PartHeader.fromBytes (partSlot buf (k + j)) = some (.ok ph)) →
      PartHeader.fromBytes (partSlot buf (k + i)) = some (.error e) →
      ImageHeader.readParts ⟨buf, 144 + 32 * k⟩ n k =
        some (.error (.InvalidPart (k + i) e)) := by
  intro n
  induction n with
  | zero => intro k i e hkn hi _ _; exact absurd hi (Nat.not_lt_zero i)
  | succ n ih =>
    intro k i e hkn hi hok herr
    have hborrow : Cursor.readBorrow ⟨buf, 144 + 32 * k⟩ 32 =
        (partSlot buf k, ⟨buf, 144 + 32 * k + 32⟩) := by
      rw [Cursor.readBorrow,
        if_pos (by show 144 + 32 * k + 32 ≤ buf.length; rw [hlen]; omega)]
      simp [partSlot]
    rcases i with _ | i'
    · rw [Nat.add_zero] at herr
      simp only [ImageHeader.readParts, NIMG_PHDR_SIZE, hborrow, herr, Nat.add_zero]
    · obtain ⟨ph, hph⟩ := hok 0 (Nat.succ_pos i')
      rw [Nat.add_zero] at hph
      simp only [ImageHeader.readParts, NIMG_PHDR_SIZE, hborrow, hph]
      have hstep : 144 + 32 * k + 32 = 144 + 32 * (k + 1) := by ring
      have hok' : ∀ j, j < i' →
          ∃ q, PartHeader.fromBytes (partSlot buf (k + 1 + j)) = some (.ok q) := by
        intro j hj
        have := hok (j + 1) (by omega)
        rwa [show k + (j + 1) = k + 1 + j by ring] at this
      have herr' : PartHeader.fromBytes (partSlot buf (k + 1 + i')) = some (.error e) := by
        rwa [show k + 1 + i' = k + (i' + 1) by ring]
      rw [hstep, ih (k + 1) i' e (by omega) (by omega) hok' herr',
        show k + 1 + i' = k + (i' + 1) by ring]

/-- The part loop never panics. -/
theorem readParts_isSome :
    ∀ (n : Nat) (reader : Cursor) (idx : Nat),
      (ImageHeader.readParts reader n idx).isSome := by
  intro n
  induction n with
  | zero => intro reader idx; simp [ImageHeader.readParts]
  | succ n ih =>
    intro reader idx
    rcases hrb : reader.readBorrow NIMG_PHDR_SIZE with ⟨bytes, reader'⟩
    have hfb := partFromBytes_isSome bytes
    rcases hpb : PartHeader.fromBytes bytes with _ | v
    · rw [hpb] at hfb; simp at hfb
    · rcases v with e | ph
      · simp [ImageHeader.readParts, hrb, hpb]
      · have hrec := ih reader' (idx + 1)
        rcases hrp : ImageHeader.readParts reader' n (idx + 1) with _ | w
        · rw [hrp] at hrec; simp at hrec
        · rcases w with e | pr
          · simp [ImageHeader.readParts, hrb, hpb, hrp]
          · rcases pr with ⟨parts, readerEnd⟩
            simp [ImageHeader.readParts, hrb, hpb, hrp]

/-! ## Name-field lemmas -/

theorem findIdx?_no_zero (name : List Nat) (h : ¬ 0 ∈ name) :
    ∀ i, List.findIdx? (fun c => c == 0) name i = none := by
  induction name with
  | nil => intro i; rfl
  | cons b bs ih =>
    intro i
    have hb : b ≠ 0 := fun hb => h (hb ▸ List.mem_cons_self b bs)
    have hbs : ¬ 0 ∈ bs := fun hm => h (List.mem_cons_of_mem b hm)
    simp only [List.findIdx?]
    rw [if_neg (by simp [hb]), ih hbs]

theorem findIdx?_zero_pad (name : List Nat) (h : ¬ 0 ∈ name) (k : Nat) :
    ∀ i, List.findIdx? (fun c => c == 0) (name ++ List.replicate (k + 1) 0) i =
      some (name.length + i) := by
  induction name with
  | nil =>
    intro i
    simp only [List.nil_append, List.replicate, List.findIdx?]
    rw [if_pos (by simp)]
    simp
  | cons b bs ih =>
    intro i
    have hb : b ≠ 0 := fun hb => h (hb ▸ List.mem_cons_self b bs)
    have hbs : ¬ 0 ∈ bs := fun hm => h (List.mem_cons_of_mem b hm)
    simp only [List.cons_append, List.findIdx?]
    rw [if_neg (by simp [hb]), List.append_eq, ih hbs (i + 1)]
    congr 1
    simp only [List.length_cons]
    omega

/-- The `nullpos` truncation recovers a NUL-free name from its zero-padded
128-byte field. -/
theorem nulTruncate_pad (name : List Nat) (h : ¬ 0 ∈ name) (k : Nat) :
    nulTruncate (name ++ List.replicate k 0) = name := by
  cases k with
  | zero =>
    rw [List.replicate, List.append_nil, nulTruncate, findIdx?_no_zero name h 0]
    simp
  | succ k =>
    rw [nulTruncate, findIdx?_zero_pad name h k 0]
    simp only [Nat.add_zero]
    simp [List.take_left]

/-! ## Serialization length -/

theorem flatten_writeTo_length (ps : List PartHeader) :
    ((ps.map PartHeader.writeTo).flatten).length = 32 * ps.length := by
  induction ps with
  | nil => simp
  | cons p ps ih => simp [partWriteTo_length, ih]; ring

theorem bodyBytes_length (hd : ImageHeader) (hname : hd.name.length ≤ 128)
    (hparts : hd.parts.length ≤ 27) : hd.bodyBytes.length = 1020 := by
  rw [ImageHeader.bodyBytes]
  simp only [List.length_append, List.length_cons, List.length_nil,
    List.length_replicate, le64_length, flatten_writeTo_length,
    NIMG_NAME_LEN, NIMG_PHDR_SIZE, NIMG_MAX_PARTS]
  omega

/-! ## Validation and serialization lemmas -/

theorem checkParts_ok :
    ∀ (ps : List PartHeader) (i : Nat),
      (∀ p ∈ ps, p.ptype ≠ PartType.Invalid) →
      ImageHeader.checkParts i ps = .ok () := by
  intro ps
  induction ps with
  | nil => intro i _; rfl
  | cons p ps ih =>
    intro i hty
    rw [ImageHeader.checkParts,
      if_neg (hty p (List.mem_cons_self p ps)),
      ih (i + 1) (fun q hq => hty q (List.mem_cons_of_mem p hq))]

theorem validate_ok (hd : ImageHeader)
    (hver : hd.version = NIMG_CURRENT_VERSION) (hname : hd.name.length ≤ 128)
    (hparts : hd.parts.length ≤ 27)
    (hty : ∀ p ∈ hd.parts, p.ptype ≠ PartType.Invalid) :
    hd.validate = .ok () := by
  rw [ImageHeader.validate,
    if_neg (by simp [hver]),
    if_neg (by simp only [NIMG_NAME_LEN]; omega),
    if_neg (by simp only [NIMG_MAX_PARTS]; omega),
    checkParts_ok hd.parts 0 hty]

theorem writeTo_ok (hd : ImageHeader)
    (hver : hd.version = NIMG_CURRENT_VERSION) (hname : hd.name.length ≤ 128)
    (hparts : hd.parts.length ≤ 27)
    (hty : ∀ p ∈ hd.parts, p.ptype ≠ PartType.Invalid) :
    hd.writeTo = .ok (hd.bodyBytes ++ le32 (xxhash32 hd.bodyBytes)) := by
  rw [ImageHeader.writeTo, validate_ok hd hver hname hparts hty]

/-- Parsing the serialized bytes of a well-formed image header recovers the
header: the core round-trip law. -/
theorem image_roundtrip (hd : ImageHeader)
    (hver : hd.version = NIMG_CURRENT_VERSION) (hname : hd.name.length ≤ 128)
    (hnonul : ¬ 0 ∈ hd.name) (hutf8 : fromUtf8Lossy hd.name = hd.name)
    (hparts : hd.parts.length ≤ 27)
    (hwf : ∀ p ∈ hd.parts, p.WF ∧ p.ptype ≠ PartType.Invalid) :
    ImageHeader.fromBytes (hd.bodyBytes ++ le32 (xxhash32 hd.bodyBytes)) =
      some (.ok hd) := by
  have hblen : hd.bodyBytes.length = 1020 := bodyBytes_length hd hname hparts
  have hxlt : xxhash32 hd.bodyBytes < 2 ^ 32 := xxhash32_lt _
  have hlen : (hd.bodyBytes ++ le32 (xxhash32 hd.bodyBytes)).length = 1024 := by
    simp [hblen, le32_length]
  have hBUF : hd.bodyBytes ++ le32 (xxhash32 hd.bodyBytes) =
      le64 NIMG_HDR_MAGIC ++ ([hd.version] ++ ([hd.parts.length] ++
        (List.replicate 6 0 ++ (hd.name ++
        (List.replicate (128 - hd.name.length) 0 ++
        ((hd.parts.map PartHeader.writeTo).flatten ++
        (List.replicate (32 * (27 - hd.parts.length)) 0 ++
        (List.replicate 12 0 ++ le32 (xxhash32 hd.bodyBytes))))))))) := by
    simp [ImageHeader.bodyBytes, NIMG_NAME_LEN, NIMG_PHDR_SIZE, NIMG_MAX_PARTS,
      List.append_assoc]
  have hmagic : imageMagic (hd.bodyBytes ++ le32 (xxhash32 hd.bodyBytes)) =
      NIMG_HDR_MAGIC := by
    rw [imageMagic, hBUF, List.take_left' (le64_length _)]
    exact leDecode_le64 _ (by rw [NIMG_HDR_MAGIC]; norm_num)
  have htake1020 : (hd.bodyBytes ++ le32 (xxhash32 hd.bodyBytes)).take 1020 =
      hd.bodyBytes := List.take_left' hblen
  have hstored : storedHash (hd.bodyBytes ++ le32 (xxhash32 hd.bodyBytes)) =
      xxhash32 hd.bodyBytes := by
    rw [storedHash, List.drop_left' hblen,
      List.take_of_length_le (le_of_eq (le32_length _)), leDecode_le32 _ hxlt]
  have d8 : (hd.bodyBytes ++ le32 (xxhash32 hd.bodyBytes)).drop 8 =
      [hd.version] ++ ([hd.parts.length] ++
        (List.replicate 6 0 ++ (hd.name ++
        (List.replicate (128 - hd.name.length) 0 ++
        ((hd.parts.map PartHeader.writeTo).flatten ++
        (List.replicate (32 * (27 - hd.parts.length)) 0 ++
        (List.replicate 12 0 ++ le32 (xxhash32 hd.bodyBytes)))))))) := by
    rw [hBUF]; exact List.drop_left' (le64_length _)
  have hb8 : byteAt (hd.bodyBytes ++ le32 (xxhash32 hd.bodyBytes)) 8 =
      hd.version := by
    rw [byteAt, d8]; simp [leDecode]
  have d9 : (hd.bodyBytes ++ le32 (xxhash32 hd.bodyBytes)).drop 9 =
      [hd.parts.length] ++
        (List.replicate 6 0 ++ (hd.name ++
        (List.replicate (128 - hd.name.length) 0 ++
        ((hd.parts.map PartHeader.writeTo).flatten ++
        (List.replicate (32 * (27 - hd.parts.length)) 0 ++
        (List.replicate 12 0 ++ le32 (xxhash32 hd.bodyBytes))))))) := by
    have hh : ((hd.bodyBytes ++ le32 (xxhash32 hd.bodyBytes)).drop 8).drop 1 =
        (hd.bodyBytes ++ le32 (xxhash32 hd.bodyBytes)).drop 9 := by
      rw [List.drop_drop]
    rw [← hh, d8]; rfl
  have hb9 : byteAt (hd.bodyBytes ++ le32 (xxhash32 hd.bodyBytes)) 9 =
      hd.parts.length := by
    rw [byteAt, d9]; simp [leDecode]
  have d16 : (hd.bodyBytes ++ le32 (xxhash32 hd.bodyBytes)).drop 16 =
      hd.name ++ (List.replicate (128 - hd.name.length) 0 ++
        ((hd.parts.map PartHeader.writeTo).flatten ++
        (List.replicate (32 * (27 - hd.parts.length)) 0 ++
        (List.replicate 12 0 ++ le32 (xxhash32 hd.bodyBytes))))) := by
    have hh : ((hd.bodyBytes ++ le32 (xxhash32 hd.bodyBytes)).drop 9).drop 7 =
        (hd.bodyBytes ++ le32 (xxhash32 hd.bodyBytes)).drop 16 := by
      rw [List.drop_drop]
    rw [← hh, d9]
    rw [show ([hd.parts.length] ++ (List.replicate 6 0 ++ (hd.name ++
      (List.replicate (128 - hd.name.length) 0 ++
      ((hd.parts.map PartHeader.writeTo).flatten ++
      (List.replicate (32 * (27 - hd.parts.length)) 0 ++
      (List.replicate 12 0 ++ le32 (xxhash32 hd.bodyBytes)))))))) =
      ([hd.parts.length] ++ List.replicate 6 0) ++ (hd.name ++
      (List.replicate (128 - hd.name.length) 0 ++
      ((hd.parts.map PartHeader.writeTo).flatten ++
      (List.replicate (32 * (27 - hd.parts.length)) 0 ++
      (List.replicate 12 0 ++ le32 (xxhash32 hd.bodyBytes)))))) by
      simp [List.append_assoc]]
    exact List.drop_left' (by simp)
  have hnamefield :
      ((hd.bodyBytes ++ le32 (xxhash32 hd.bodyBytes)).drop 16).take 128 =
      hd.name ++ List.replicate (128 - hd.name.length) 0 := by
    rw [d16, ← List.append_assoc]
    exact List.take_left' (by simp; omega)
  have hname2 : imageName (hd.bodyBytes ++ le32 (xxhash32 hd.bodyBytes)) =
      hd.name := by
    rw [imageName, hnamefield, nulTruncate_pad hd.name hnonul, hutf8]
  have hBUF2 : hd.bodyBytes ++ le32 (xxhash32 hd.bodyBytes) =
      (le64 NIMG_HDR_MAGIC ++ [hd.version] ++ [hd.parts.length] ++
        List.replicate 6 0 ++ hd.name ++
        List.replicate (128 - hd.name.length) 0) ++
      ((hd.parts.map PartHeader.writeTo).flatten ++
        (List.replicate (32 * (27 - hd.parts.length)) 0 ++
        (List.replicate 12 0 ++ le32 (xxhash32 hd.bodyBytes)))) := by
    simp [ImageHeader.bodyBytes, NIMG_NAME_LEN, NIMG_PHDR_SIZE, NIMG_MAX_PARTS,
      List.append_assoc]
  have hpre : (le64 NIMG_HDR_MAGIC ++ [hd.version] ++ [hd.parts.length] ++
      List.replicate 6 0 ++ hd.name ++
      List.replicate (128 - hd.name.length) 0).length = 144 := by
    simp [le64_length]
    omega
  have hrp := readParts_blocks hd.parts
    (le64 NIMG_HDR_MAGIC ++ [hd.version] ++ [hd.parts.length] ++
      List.replicate 6 0 ++ hd.name ++ List.replicate (128 - hd.name.length) 0)
    (List.replicate (32 * (27 - hd.parts.length)) 0 ++
      (List.replicate 12 0 ++ le32 (xxhash32 hd.bodyBytes))) 0 hwf
  rw [hpre] at hrp
  rw [ImageHeader.fromBytes_shape _ hlen]
  rw [if_neg (by simp [hmagic])]
  rw [if_neg (by simp [hstored, htake1020])]
  rw [if_neg (by simp [hb8, hver])]
  rw [if_neg (by simp only [hb9, NIMG_MAX_PARTS]; omega)]
  rw [hb8, hname2, hb9]
  rw [hBUF2, hrp]

/-! ## Claim theorems -/

/-- C2: `ImageHeader::from_bytes` on any buffer whose length is not exactly
1024 fails with the size-mismatch error carrying the actual length,
regardless of content. -/
theorem claim2_bad_size (buf : List Nat) (h : buf.length ≠ 1024) :
    ImageHeader.fromBytes buf = some (.error (.BadSize buf.length)) := by
  rw [ImageHeader.fromBytes, if_pos (by simpa [NIMG_HDR_SIZE] using h)]

/-- C2 witness: the empty buffer is rejected with `BadSize 0`. -/
theorem claim2_bad_size_witness :
    ([] : List Nat).length ≠ 1024 ∧
    ImageHeader.fromBytes [] = some (.error (.BadSize ([] : List Nat).length)) :=
  ⟨by decide, claim2_bad_size [] (by decide)⟩

/-- C3: on a 1024-byte buffer the magic is validated before the checksum —
a wrong magic yields `BadMagic` with the read value no matter what the
checksum bytes hold — and when the magic is intact but the stored trailing
checksum differs from the value recomputed over bytes `[0, 1020)` (as any
corruption of a byte in `[8, 1020)` that does not collide the hash
produces), the result is `BadHash` reporting both the stored and the
recomputed value. -/
theorem claim3_magic_then_hash (buf : List Nat) (hlen : buf.length = 1024) :
    (imageMagic buf ≠ NIMG_HDR_MAGIC →
      ImageHeader.fromBytes buf = some (.error (.BadMagic (imageMagic buf)))) ∧
    (imageMagic buf = NIMG_HDR_MAGIC →
      storedHash buf ≠ xxhash32 (buf.take 1020) →
      ImageHeader.fromBytes buf =
        some (.error (.BadHash (storedHash buf) (xxhash32 (buf.take 1020))))) := by
  constructor
  · intro hm
    rw [ImageHeader.fromBytes_shape buf hlen, if_pos hm]
  · intro hm hh
    rw [ImageHeader.fromBytes_shape buf hlen, if_neg (by simp [hm]), if_pos hh]

/-- The good test header with its first magic byte zeroed. -/
def badMagicBytes : List Nat :=
  goodHeaderStart.set 0 0 ++ List.replicate 812 0 ++ [0x6C, 0xF6, 0x52, 0xC2]

/-- The good test header with one name byte corrupted (offset 100 set to 1)
while the stored trailing checksum is left unmodified. -/
def badHashBytes : List Nat :=
  goodHeaderStart.set 100 1 ++ List.replicate 812 0 ++ [0x6C, 0xF6, 0x52, 0xC2]

set_option maxRecDepth 100000 in
/-- C3 witness: a corrupted-magic buffer gives `BadMagic` (not a checksum
error), and a corrupted-body buffer with unmodified stored checksum gives
`BadHash` with both values. -/
theorem claim3_magic_then_hash_witness :
    ImageHeader.fromBytes badMagicBytes =
      some (.error (.BadMagic (imageMagic badMagicBytes))) ∧
    ImageHeader.fromBytes badHashBytes =
      some (.error (.BadHash (storedHash badHashBytes)
        (xxhash32 (badHashBytes.take 1020)))) :=
  ⟨(claim3_magic_then_hash badMagicBytes (by decide)).1 (by decide),
   (claim3_magic_then_hash badHashBytes (by decide)).2 (by decide) (by decide)⟩

/-- `PartType::from_u8_valid` accepts exactly the discriminants 1–4. -/
theorem fromU8Valid_ok (v : Nat) (h1 : 1 ≤ v) (h4 : v ≤ 4) :
    PartType.fromU8Valid v = .ok (PartType.fromU8 v) := by
  interval_cases v <;> rfl

/-- C8: a 32-byte part buffer with valid magic and a valid non-invalid type
byte but a compression byte greater than 2 fails with `BadComp` carrying
that byte — a variant distinct from `BadSize`, `BadMagic`, `BadType` and
the checksum-mismatch variant. -/
theorem claim8_bad_comp (buf : List Nat) (hlen : buf.length = 32)
    (hmagic : partMagic buf = NIMG_PHDR_MAGIC)
    (ht1 : 1 ≤ byteAt buf 24) (ht4 : byteAt buf 24 ≤ 4)
    (hc : 2 < byteAt buf 25) :
    PartHeader.fromBytes buf = some (.error (.BadComp (byteAt buf 25))) ∧
    (∀ n, PartValidError.BadComp (byteAt buf 25) ≠ .BadSize n) ∧
    (∀ m, PartValidError.BadComp (byteAt buf 25) ≠ .BadMagic m) ∧
    (∀ t, PartValidError.BadComp (byteAt buf 25) ≠ .BadType t) ∧
    (∀ x y, PartValidError.BadComp (byteAt buf 25) ≠ .BadCrc x y) := by
  refine ⟨?_, ?_, ?_, ?_, ?_⟩
  · rw [partFromBytes_shape buf hlen, if_neg (by simp [hmagic]),
      fromU8Valid_ok _ ht1 ht4]
    simp only []
    rw [CompMode.tryFrom, if_neg (by omega)]
  · intro n h; cases h
  · intro m h; cases h
  · intro t h; cases h
  · intro x y h; cases h

/-- A 32-byte part record with valid magic, type byte 1 and compression
byte 3 (no known mode). -/
def badCompBytes : List Nat :=
  le64 NIMG_PHDR_MAGIC ++ le64 0 ++ le64 0 ++ [1] ++ [3] ++
    List.replicate 2 0 ++ le32 0

/-- C8 witness: the concrete bad-compression record is rejected with
`BadComp 3`. -/
theorem claim8_bad_comp_witness :
    PartHeader.fromBytes badCompBytes =
      some (.error (.BadComp (byteAt badCompBytes 25))) ∧
    (∀ n, PartValidError.BadComp (byteAt badCompBytes 25) ≠ .BadSize n) ∧
    (∀ m, PartValidError.BadComp (byteAt badCompBytes 25) ≠ .BadMagic m) ∧
    (∀ t, PartValidError.BadComp (byteAt badCompBytes 25) ≠ .BadType t) ∧
    (∀ x y, PartValidError.BadComp (byteAt badCompBytes 25) ≠ .BadCrc x y) :=
  claim8_bad_comp badCompBytes (by decide) (by decide) (by decide) (by decide)
    (by decide)

/-- C9 counterexample: `skip` is not clamped to the buffer length.  On a
32-byte buffer at position 28, `skip(10)` returns 10 — not the 4 bytes
that remain — and leaves the position at 38, past the end. -/
theorem claim9_skip_cex :
    Cursor.skip ⟨List.replicate 32 0, 28⟩ 10 =
      some (10, ⟨List.replicate 32 0, 38⟩) ∧
    (10 : Nat) ≠ 32 - 28 := by
  constructor
  · rw [Cursor.skip, if_pos (by norm_num)]
  · decide

/-- C9 (amended): `read_borrow(count)` returns at most `count` bytes — the
full in-bounds slice when `pos + count ≤ len`, and the empty borrow when
the request overruns the end, so callers must check the returned length;
`skip(count)` never errors for any in-range request (`count < 2^63`,
no position overflow), advances the position by exactly `count` — past the
end of the buffer if need be — and returns `count`, not the number of bytes
that remained. -/
theorem claim9_read_borrow_skip (c : Cursor) (count : Nat) :
    ((c.readBorrow count).1.length ≤ count) ∧
    (c.pos + count ≤ c.buf.length →
      (c.readBorrow count).1 = (c.buf.drop c.pos).take count ∧
      (c.readBorrow count).1.length = count) ∧
    (c.buf.length < c.pos + count → (c.readBorrow count).1 = []) ∧
    (count < 2 ^ 63 → c.pos + count < 2 ^ 64 →
      c.skip count = some (count, { c with pos := c.pos + count })) := by
  refine ⟨?_, fun hin => ⟨?_, ?_⟩, fun hout => ?_,
    fun h1 h2 => Cursor.skip_small c count h1 h2⟩
  · rw [Cursor.readBorrow]
    split
    · simp only [List.length_take]
      exact Nat.min_le_left _ _
    · simp
  · rw [Cursor.readBorrow, if_pos hin]
  · rw [Cursor.readBorrow, if_pos hin]
    simp only [List.length_take, List.length_drop]
    omega
  · rw [Cursor.readBorrow, if_neg (by omega)]

/-- C9 witness: at position 28 of a 32-byte buffer, a 10-byte borrow
returns the empty slice and `skip(10)` returns 10 with position 38. -/
theorem claim9_read_borrow_skip_witness :
    (Cursor.readBorrow ⟨List.replicate 32 0, 28⟩ 10).1 = [] ∧
    Cursor.skip ⟨List.replicate 32 0, 28⟩ 10 =
      some (10, ⟨List.replicate 32 0, 28 + 10⟩) :=
  ⟨(claim9_read_borrow_skip ⟨List.replicate 32 0, 28⟩ 10).2.2.1 (by decide),
   (claim9_read_borrow_skip ⟨List.replicate 32 0, 28⟩ 10).2.2.2 (by decide)
     (by decide)⟩

/-- C10: `ImageHeader::from_bytes` is total — for every input buffer it
returns a parse result (header or structured error) and never reaches a
panic: every `.unwrap()` on the internal reads and seeks succeeds
(`none` in the model is a panic, and is never produced). -/
theorem claim10_total (buf : List Nat) : (ImageHeader.fromBytes buf).isSome = true := by
  by_cases hlen : buf.length = 1024
  · rw [ImageHeader.fromBytes_shape buf hlen]
    by_cases h1 : imageMagic buf ≠ NIMG_HDR_MAGIC
    · rw [if_pos h1]; rfl
    · rw [if_neg h1]
      by_cases h2 : storedHash buf ≠ xxhash32 (buf.take 1020)
      · rw [if_pos h2]; rfl
      · rw [if_neg h2]
        by_cases h3 : byteAt buf 8 ≠ NIMG_CURRENT_VERSION
        · rw [if_pos h3]; rfl
        · rw [if_neg h3]
          by_cases h4 : byteAt buf 9 > NIMG_MAX_PARTS
          · rw [if_pos h4]; rfl
          · rw [if_neg h4]
            have hrp := readParts_isSome (byteAt buf 9) ⟨buf, 144⟩ 0
            rcases hx : ImageHeader.readParts ⟨buf, 144⟩ (byteAt buf 9) 0
              with _ | v
            · rw [hx] at hrp; simp at hrp
            · rcases v with e | pr
              · simp [hx]
              · rcases pr with ⟨parts, c⟩; simp [hx]
  · rw [ImageHeader.fromBytes, if_pos (by simpa [NIMG_HDR_SIZE] using hlen)]
    rfl

/-- C4: when a 1024-byte buffer passes the image-level magic, checksum,
version and part-count checks but the part at index `i` fails to parse
(all earlier slots parsing), `from_bytes` fails with the image-level
`InvalidPart` error carrying `i` and the part-level cause, and
`Error::source` exposes that nested cause — part-level errors are wrapped,
never swallowed. -/
theorem claim4_invalid_part_wrapped (buf : List Nat) (hlen : buf.length = 1024)
    (hmagic : imageMagic buf = NIMG_HDR_MAGIC)
    (hhash : storedHash buf = xxhash32 (buf.take 1020))
    (hver : byteAt buf 8 = NIMG_CURRENT_VERSION)
    (hcnt : byteAt buf 9 ≤ NIMG_MAX_PARTS)
    (i : Nat) (e : PartValidError) (hi : i < byteAt buf 9)
    (hok : ∀ j, j < i →
      ∃ ph, PartHeader.fromBytes (partSlot buf j) = some (.ok ph))
    (herr : PartHeader.fromBytes (partSlot buf i) = some (.error e)) :
    ImageHeader.fromBytes buf = some (.error (.InvalidPart i e)) ∧
    ImageValidError.source (.InvalidPart i e) = some e := by
  refine ⟨?_, rfl⟩
  rw [ImageHeader.fromBytes_shape buf hlen, if_neg (by simp [hmagic]),
    if_neg (by simp [hhash]), if_neg (by simp [hver]), if_neg (by omega)]
  have hre := readParts_error_at buf hlen (byteAt buf 9) 0 i e
    (by simp only [NIMG_MAX_PARTS] at hcnt; omega) hi
    (fun j hj => by rw [Nat.zero_add]; exact hok j hj)
    (by rw [Nat.zero_add]; exact herr)
  rw [Nat.mul_zero, Nat.add_zero, Nat.zero_add] at hre
  rw [hre]

set_option maxRecDepth 1000000 in
/-- C4 witness: the test fixture with the second part slot's magic
corrupted (and the image hash fixed up) is rejected with
`InvalidPart 1 (BadMagic ...)`, whose `source` is the part-level error. -/
theorem claim4_invalid_part_wrapped_witness :
    ImageHeader.fromBytes corruptPart1Bytes =
      some (.error (.InvalidPart 1 (.BadMagic 0x54524150474D4900))) ∧
    ImageValidError.source (.InvalidPart 1 (.BadMagic 0x54524150474D4900)) =
      some (.BadMagic 0x54524150474D4900) :=
  claim4_invalid_part_wrapped corruptPart1Bytes (by decide) (by decide)
    (by decide) (by decide) (by decide) 1 (.BadMagic 0x54524150474D4900)
    (by decide)
    (fun j hj => by
      have hj0 : j = 0 := by omega
      subst hj0
      exact ⟨{ size := 0x1DBE838, offset := 0, ptype := .BootImg,
               comp := .Zstd, xxh := 0xE74B8670 }, by decide⟩)
    (by decide)

/-- C5: whenever `from_bytes` succeeds, the resulting name is exactly the
128-byte field at offset 16 truncated at its first NUL byte (the whole
field when no NUL is present), decoded with lossy UTF-8 replacement. -/
theorem claim5_name_decoding (buf : List Nat) (hdr : ImageHeader)
    (h : ImageHeader.fromBytes buf = some (.ok hdr)) :
    hdr.name = fromUtf8Lossy (nulTruncate ((buf.drop 16).take 128)) := by
  by_cases hlen : buf.length = 1024
  · rw [ImageHeader.fromBytes_shape buf hlen] at h
    by_cases h1 : imageMagic buf ≠ NIMG_HDR_MAGIC
    · rw [if_pos h1] at h; exact absurd h (by simp)
    · rw [if_neg h1] at h
      by_cases h2 : storedHash buf ≠ xxhash32 (buf.take 1020)
      · rw [if_pos h2] at h; exact absurd h (by simp)
      · rw [if_neg h2] at h
        by_cases h3 : byteAt buf 8 ≠ NIMG_CURRENT_VERSION
        · rw [if_pos h3] at h; exact absurd h (by simp)
        · rw [if_neg h3] at h
          by_cases h4 : byteAt buf 9 > NIMG_MAX_PARTS
          · rw [if_pos h4] at h; exact absurd h (by simp)
          · rw [if_neg h4] at h
            rcases hx : ImageHeader.readParts ⟨buf, 144⟩ (byteAt buf 9) 0
              with _ | v
            · rw [hx] at h; exact absurd h (by simp)
            · rcases v with e | pr
              · rw [hx] at h; exact absurd h (by simp)
              · rcases pr with ⟨parts, c⟩
                rw [hx] at h
                have h' : ImageHeader.mk (byteAt buf 8) (imageName buf) parts =
                    hdr := by simpa using h
                rw [← h']
                rfl
  · rw [ImageHeader.fromBytes, if_pos (by simpa [NIMG_HDR_SIZE] using hlen)] at h
    exact absurd h (by simp)

/-- A one-part header used in concrete witnesses. -/
def helloPart : PartHeader :=
  { size := 100, offset := 0, ptype := .BootImg, comp := .None, xxh := 5 }

/-- A header named "hello". -/
def helloHdr : ImageHeader :=
  { version := 3, name := [104, 101, 108, 108, 111], parts := [helloPart] }

/-- Serialization of `helloHdr`: the name field holds "hello" followed by
NUL padding. -/
def helloBytes : List Nat :=
  helloHdr.bodyBytes ++ le32 (xxhash32 helloHdr.bodyBytes)

/-- A header whose name fills all 128 bytes (no NUL in the field). -/
def name128Hdr : ImageHeader :=
  { version := 3, name := List.replicate 128 97, parts := [helloPart] }

/-- Serialization of `name128Hdr`: a name field with no NUL byte. -/
def name128Bytes : List Nat :=
  name128Hdr.bodyBytes ++ le32 (xxhash32 name128Hdr.bodyBytes)

set_option maxRecDepth 1000000 in
/-- C5 witness: a name field `"hello\0...\0"` parses to the 5-byte name
"hello", and a field with no NUL parses to the full 128-byte name; both
equal the NUL-truncated lossily-decoded field. -/
theorem claim5_name_decoding_witness :
    ImageHeader.fromBytes helloBytes = some (.ok helloHdr) ∧
    helloHdr.name = fromUtf8Lossy (nulTruncate ((helloBytes.drop 16).take 128)) ∧
    helloHdr.name = [104, 101, 108, 108, 111] ∧
    ImageHeader.fromBytes name128Bytes = some (.ok name128Hdr) ∧
    name128Hdr.name =
      fromUtf8Lossy (nulTruncate ((name128Bytes.drop 16).take 128)) ∧
    name128Hdr.name.length = 128 :=
  ⟨by decide,
   claim5_name_decoding helloBytes helloHdr (by decide),
   by decide,
   by decide,
   claim5_name_decoding name128Bytes name128Hdr (by decide),
   by decide⟩

/-- The part loop of `validate` errors (at the first `Invalid`-typed part)
whenever some part has the sentinel type. -/
theorem checkParts_err :
    ∀ (ps : List PartHeader) (i : Nat),
      (∃ p ∈ ps, p.ptype = PartType.Invalid) →
      ∃ k, ImageHeader.checkParts i ps = .error (.InvalidPart k (.BadType 0)) := by
  intro ps
  induction ps with
  | nil =>
    intro i h
    obtain ⟨p, hp, _⟩ := h
    simp at hp
  | cons p ps ih =>
    intro i h
    by_cases hp : p.ptype = PartType.Invalid
    · exact ⟨i, by rw [ImageHeader.checkParts, if_pos hp]; rfl⟩
    · obtain ⟨q, hq, hqi⟩ := h
      rcases List.mem_cons.mp hq with rfl | hq'
      · exact absurd hqi hp
      · obtain ⟨k, hk⟩ := ih (i + 1) ⟨q, hq', hqi⟩
        exact ⟨k, by rw [ImageHeader.checkParts, if_neg hp, hk]⟩

/-- C6 (amended): `validate` checks version, then name length, then part
count, then the `Invalid`-type scan, in that order; each failure surfaces
its variant only when the earlier checks pass, and validation succeeds
exactly under the stated bounds. -/
theorem claim6_validate (hd : ImageHeader) :
    (hd.version ≠ 3 → hd.validate = .error (.UnsupportedVersion hd.version)) ∧
    (hd.version = 3 → 129 ≤ hd.name.length →
      hd.validate = .error (.NameTooLong hd.name.length)) ∧
    (hd.version = 3 → hd.name.length ≤ 128 → 28 ≤ hd.parts.length →
      hd.validate = .error (.TooManyParts hd.parts.length)) ∧
    (hd.version = 3 → hd.name.length ≤ 128 → hd.parts.length ≤ 27 →
      (∃ p ∈ hd.parts, p.ptype = PartType.Invalid) →
      ∃ k, hd.validate = .error (.InvalidPart k (.BadType 0))) ∧
    (hd.version = 3 → hd.name.length ≤ 128 → hd.parts.length ≤ 27 →
      (∀ p ∈ hd.parts, p.ptype ≠ PartType.Invalid) →
      hd.validate = .ok ()) := by
  refine ⟨?_, ?_, ?_, ?_, ?_⟩
  · intro hv
    rw [ImageHeader.validate,
      if_pos (by simpa [NIMG_CURRENT_VERSION] using hv)]
  · intro hv hn
    rw [ImageHeader.validate, if_neg (by simp [hv, NIMG_CURRENT_VERSION]),
      if_pos (by simp only [NIMG_NAME_LEN]; omega)]
  · intro hv hn hp
    rw [ImageHeader.validate, if_neg (by simp [hv, NIMG_CURRENT_VERSION]),
      if_neg (by simp only [NIMG_NAME_LEN]; omega),
      if_pos (by simp only [NIMG_MAX_PARTS]; omega)]
  · intro hv hn hp hex
    obtain ⟨k, hk⟩ := checkParts_err hd.parts 0 hex
    refine ⟨k, ?_⟩
    rw [ImageHeader.validate, if_neg (by simp [hv, NIMG_CURRENT_VERSION]),
      if_neg (by simp only [NIMG_NAME_LEN]; omega),
      if_neg (by simp only [NIMG_MAX_PARTS]; omega), hk]
  · intro hv hn hp hty
    exact validate_ok hd (by simp [hv, NIMG_CURRENT_VERSION]) hn hp hty

/-- A well-formed dummy part. -/
def okPart : PartHeader :=
  { size := 0, offset := 0, ptype := .BootImg, comp := .None, xxh := 0 }

/-- A header with 28 parts and a non-current version: the version check
fires first. -/
def c6Hdr : ImageHeader :=
  { version := 0, name := [], parts := List.replicate 28 okPart }

set_option maxRecDepth 10000 in
/-- C6 counterexample: a header with 28 parts does not necessarily fail
with the too-many-parts error — with version 0 it fails with
`UnsupportedVersion` because the version is checked first. -/
theorem claim6_validate_cex :
    c6Hdr.parts.length = 28 ∧
    c6Hdr.validate = .error (.UnsupportedVersion 0) ∧
    c6Hdr.validate ≠ .error (.TooManyParts c6Hdr.parts.length) := by
  decide

/-- Headers exercising each branch of `validate`. -/
def c6vA : ImageHeader := { version := 5, name := [], parts := [] }

def c6vB : ImageHeader :=
  { version := 3, name := List.replicate 129 97, parts := [] }

def c6vC : ImageHeader :=
  { version := 3, name := [], parts := List.replicate 28 okPart }

def c6vD : ImageHeader :=
  { version := 3, name := [], parts := [okPart, PartHeader.default] }

def c6vE : ImageHeader := { version := 3, name := [104], parts := [okPart] }

set_option maxRecDepth 100000 in
/-- C6 witness: each `validate` branch at a concrete header — bad version,
129-byte name, 28 parts, an `Invalid`-typed part, and a fully valid
header. -/
theorem claim6_validate_witness :
    c6vA.validate = .error (.UnsupportedVersion 5) ∧
    c6vB.validate = .error (.NameTooLong 129) ∧
    c6vC.validate = .error (.TooManyParts 28) ∧
    (∃ k, c6vD.validate = .error (.InvalidPart k (.BadType 0))) ∧
    c6vE.validate = .ok () :=
  ⟨(claim6_validate c6vA).1 (by decide),
   (claim6_validate c6vB).2.1 (by decide) (by decide),
   (claim6_validate c6vC).2.2.1 (by decide) (by decide) (by decide),
   (claim6_validate c6vD).2.2.2.1 (by decide) (by decide) (by decide)
     ⟨PartHeader.default, by decide⟩,
   (claim6_validate c6vE).2.2.2.2 (by decide) (by decide) (by decide)
     (by decide)⟩

/-- C7 counterexample: `write_to` of the default (Invalid-typed) part
emits 32 bytes, but re-parsing them yields `BadType 0`, not an equal
header — the round-trip law fails for `Invalid`-typed parts. -/
theorem claim7_part_roundtrip_cex :
    PartHeader.default.writeTo.length = 32 ∧
    PartHeader.fromBytes PartHeader.default.writeTo =
      some (.error (.BadType 0)) ∧
    PartHeader.fromBytes PartHeader.default.writeTo ≠
      some (.ok PartHeader.default) := by
  decide

/-- C7 (amended): for every part header with in-range fields and a
non-`Invalid` type, `write_to` emits exactly the 32-byte fixed layout
(magic, size, offset, type byte, compression byte, 2 zero padding bytes,
checksum) — byte-for-byte a function of the header — and re-parsing
yields the serialized header. -/
theorem claim7_part_roundtrip (p : PartHeader) (hwf : p.WF)
    (hty : p.ptype ≠ PartType.Invalid) :
    p.writeTo = le64 NIMG_PHDR_MAGIC ++ le64 p.size ++ le64 p.offset ++
      [p.ptype.toU8] ++ [p.comp.toU8] ++ List.replicate 2 0 ++ le32 p.xxh ∧
    p.writeTo.length = 32 ∧
    PartHeader.fromBytes p.writeTo = some (.ok p) :=
  ⟨rfl, partWriteTo_length p, part_roundtrip p hwf hty⟩

/-- The first part of the good test header. -/
def c7Part : PartHeader :=
  { size := 0x1DBE838, offset := 0, ptype := .BootImg, comp := .Zstd,
    xxh := 0xE74B8670 }

/-- C7 witness: the concrete round-trip at `c7Part`. -/
theorem claim7_part_roundtrip_witness :
    c7Part.writeTo = le64 NIMG_PHDR_MAGIC ++ le64 c7Part.size ++
      le64 c7Part.offset ++ [c7Part.ptype.toU8] ++ [c7Part.comp.toU8] ++
      List.replicate 2 0 ++ le32 c7Part.xxh ∧
    c7Part.writeTo.length = 32 ∧
    PartHeader.fromBytes c7Part.writeTo = some (.ok c7Part) :=
  claim7_part_roundtrip c7Part (by decide) (by decide)

/-- C1 (amended): serialize-then-parse round-trip for every header with
the current version, 1–27 well-formed non-`Invalid` parts, and a NUL-free
valid-UTF-8 name of at most 128 bytes (`fromUtf8Lossy hd.name = hd.name`
is exactly the UTF-8 validity a Rust `String` guarantees). -/
theorem claim1_roundtrip (hd : ImageHeader)
    (hver : hd.version = NIMG_CURRENT_VERSION)
    (hlo : 1 ≤ hd.parts.length) (hhi : hd.parts.length ≤ 27)
    (hname : hd.name.length ≤ 128)
    (hnonul : ¬ 0 ∈ hd.name) (hutf8 : fromUtf8Lossy hd.name = hd.name)
    (hwf : ∀ p ∈ hd.parts, p.WF ∧ p.ptype ≠ PartType.Invalid) :
    hd.writeTo = .ok (hd.bodyBytes ++ le32 (xxhash32 hd.bodyBytes)) ∧
    ImageHeader.fromBytes (hd.bodyBytes ++ le32 (xxhash32 hd.bodyBytes)) =
      some (.ok hd) :=
  ⟨writeTo_ok hd hver hname hhi (fun p hp => (hwf p hp).2),
   image_roundtrip hd hver hname hnonul hutf8 hhi hwf⟩

/-- A header whose name contains an embedded NUL byte (`"a\0b"`), legal
for a Rust `String` and accepted by `validate`. -/
def c1cexHdr : ImageHeader :=
  { version := 3, name := [97, 0, 98], parts := [c7Part] }

/-- Serialization of `c1cexHdr`. -/
def c1cexBytes : List Nat :=
  c1cexHdr.bodyBytes ++ le32 (xxhash32 c1cexHdr.bodyBytes)

/-- What actually comes back: the name is truncated at the NUL. -/
def c1cexParsed : ImageHeader :=
  { version := 3, name := [97], parts := [c7Part] }

set_option maxRecDepth 300000 in
/-- C1 counterexample: a header satisfying every condition of the claim as
frozen (version 3, one part of a valid type, 3-byte name) whose serialize
→ parse round trip yields a *different* header, because the embedded NUL
in the name is truncated by parsing. -/
theorem claim1_roundtrip_cex :
    c1cexHdr.version = NIMG_CURRENT_VERSION ∧
    1 ≤ c1cexHdr.parts.length ∧ c1cexHdr.parts.length ≤ 27 ∧
    c1cexHdr.name.length ≤ 128 ∧
    (∀ p ∈ c1cexHdr.parts, p.ptype ≠ PartType.Invalid) ∧
    c1cexHdr.writeTo = .ok c1cexBytes ∧
    ImageHeader.fromBytes c1cexBytes = some (.ok c1cexParsed) ∧
    c1cexParsed ≠ c1cexHdr :=
  ⟨by decide, by decide, by decide, by decide, by decide,
   writeTo_ok c1cexHdr (by decide) (by decide) (by decide) (by decide),
   by decide, by decide⟩

set_option maxRecDepth 300000 in
/-- C1 witness: the round trip at the known-good two-part test header. -/
theorem claim1_roundtrip_witness :
    goodHeaderObj.writeTo =
      .ok (goodHeaderObj.bodyBytes ++ le32 (xxhash32 goodHeaderObj.bodyBytes)) ∧
    ImageHeader.fromBytes
      (goodHeaderObj.bodyBytes ++ le32 (xxhash32 goodHeaderObj.bodyBytes)) =
      some (.ok goodHeaderObj) :=
  claim1_roundtrip goodHeaderObj (by decide) (by decide) (by decide)
    (by decide) (by decide) (by decide) (by decide)

end Nimage
